import Mathlib

/-!
Shallow embedding of the pull half of the offline sync client
(`src/sdk/src/sync/pull.js`).

Timestamps are modelled as `Int` milliseconds since the Unix epoch, the
representation underlying a JS `Date`.  External collaborators (the remote
source, the local store, the pending-operation log) are modelled as an
environment of functions and the effects issued against them are recorded in
an explicit trace.  The query object of the external `azure-query-js` package
is modelled by its component record, which is all `pull.js` reads and writes
of it.
-/

namespace PullSync

/-- Milliseconds since the Unix epoch, the value of a JS `Date`. -/
abbrev Timestamp := Int

/-- The value of a pulled record's `deleted` system column as `pull.js`
distinguishes them with `===`: exactly `true`, exactly `false`, or anything
else (absent or non-boolean). -/
inductive DeletedFlag
  | tt
  | ff
  | other
deriving DecidableEq, BEq, Repr

/-- A record pulled from the remote table: its `id`, its `updatedAt` system
column (`none` when the value is not a valid date), and its `deleted` flag. -/
structure Record where
  id : String
  updatedAt : Option Timestamp
  deleted : DeletedFlag
deriving DecidableEq, BEq, Repr

/-- The component record of an `azure-query-js` query, as returned by
`getComponents()`.  `skip`/`take` are `none` when never set (JS `undefined`). -/
structure SyncQuery where
  table : String
  filterODataString : Option String
  ordering : List String
  skip : Option Nat
  take : Option Nat
  selections : List String
  includeTotalCount : Bool
deriving DecidableEq, BEq, Repr

/-- JS truthiness of an optional number (`undefined` and `0` are falsy). -/
def jsTruthyNat : Option Nat → Bool
  | none => false
  | some n => n != 0

/-- JS truthiness of an optional string (`undefined`/`null` and `""` are
falsy). -/
def jsTruthyStr : Option String → Bool
  | none => false
  | some s => s != ""

/-- `tableConstants.sysProps.updatedAtColumnName`. -/
def updatedAtColumnName : String := "updatedAt"

/-- `defaultPageSize` in `pull.js`. -/
def defaultPageSize : Nat := 50

/-- `validateQuery` of `pull.js`: rejects a pull query that carries an
ordering clause, a (truthy) skip, a (truthy) take, a non-empty selection
list, or a total-count request, in that order. -/
def validateQuery (q : SyncQuery) : Except String Unit :=
  if q.ordering ≠ [] then
    .error "orderBy and orderByDescending clauses are not supported in the pull query"
  else if jsTruthyNat q.skip then
    .error "skip is not supported in the pull query"
  else if jsTruthyNat q.take then
    .error "take is not supported in the pull query"
  else if q.selections ≠ [] then
    .error "select is not supported in the pull query"
  else if q.includeTotalCount then
    .error "includeTotalCount is not supported in the pull query"
  else
    .ok ()

/-- The per-page query built by `pull.js`: the copied base query plus the
programmatically added `updatedAt >= cursor` clause, ordering, skip and
take. -/
structure PageQuery where
  base : SyncQuery
  cursorFilter : Timestamp
  ordering : List String
  skip : Nat
  take : Nat
deriving DecidableEq, BEq, Repr

/-- The mutable closure state of `createPullManager` that one pull run
manipulates: `lastKnownUpdatedAt`, `pagePullQuery`, `pageSize` and the copied
`tablePullQuery`. -/
structure PullState where
  lastKnownUpdatedAt : Timestamp
  pagePullQuery : PageQuery
  pageSize : Nat
  tablePullQuery : SyncQuery
deriving DecidableEq, BEq, Repr

/-- `buildQueryFromLastKnownUpdateAt` of `pull.js`: set the cursor, copy the
table query, add the `updatedAt >= cursor` clause, order by `updatedAt`
(ascending) and take one page. -/
def buildQueryFromLastKnownUpdateAt (st : PullState) (updatedAt : Timestamp) : PullState :=
  { st with
    lastKnownUpdatedAt := updatedAt
    pagePullQuery :=
      { base := st.tablePullQuery
        cursorFilter := updatedAt
        ordering := st.tablePullQuery.ordering ++ [updatedAtColumnName]
        skip := st.tablePullQuery.skip.getD 0
        take := st.pageSize } }

/-- `updateQueryForNextPage` of `pull.js`: look at the last record of the
page; its `updatedAt` must be a valid date; if it equals the cursor, bump the
page query's skip by the page length, otherwise rebuild the page query from
the new cursor. -/
def updateQueryForNextPage (st : PullState) (pulledRecords : List Record) :
    Except String PullState :=
  match pulledRecords.getLast? with
  | none =>
    .error "Something is wrong. Possibly invalid response from the server. lastRecord cannot be null!"
  | some lastRecord =>
    match lastRecord.updatedAt with
    | none =>
      .error ("Property " ++ updatedAtColumnName ++ " of the last record should be a valid date")
    | some lastRecordTime =>
      if lastRecordTime = st.lastKnownUpdatedAt then
        .ok { st with
              pagePullQuery :=
                { st.pagePullQuery with
                  skip := st.pagePullQuery.skip + pulledRecords.length } }
      else
        .ok (buildQueryFromLastKnownUpdateAt st lastRecordTime)

/-- `isPullComplete` of `pull.js`: the pull is complete exactly when the page
holds zero records. -/
def isPullComplete (pulledRecords : List Record) : Bool :=
  pulledRecords.length == 0

/-- Epoch milliseconds of `new Date(1970, 0, 0)`: local calendar time
1969-12-31T00:00:00 in a zone whose `getTimezoneOffset()` is
`tzOffsetMinutes`. -/
def date1970JanZero (tzOffsetMinutes : Int) : Timestamp :=
  -86400000 + tzOffsetMinutes * 60000

/-- The minimum representable JS `Date` value, `-8.64e15` ms. -/
def minJsDateMs : Int := -8640000000000000

/-- The external collaborators of one pull run: the remote source, the
pending-operation log (only its count is ever read), the checkpoint row
stored for the pull's query id, and the timezone offset the JS engine would
use for calendar-built dates. -/
structure PullEnv where
  server : PageQuery → List Record
  pendingOpsCount : String → List Record → Nat
  checkpoint : Option Timestamp
  tzOffsetMinutes : Int

/-- An observable effect issued against a collaborator during a pull run. -/
inductive Effect
  | fetch (q : PageQuery) (result : List Record)
  | storeDel (table : String) (ids : List String)
  | storeUpsert (table : String) (records : List Record)
  | checkpointLookup (queryId : String) (result : Option Timestamp)
  | checkpointWrite (queryId : String) (table : String) (value : Timestamp)
deriving DecidableEq, BEq, Repr

/-- `getLastKnownUpdatedAt` of `pull.js`: for a truthy query id, look the
checkpoint row up and return its value; otherwise (or when no row exists)
return `new Date(1970, 0, 0)`. -/
def getLastKnownUpdatedAt (env : PullEnv) (pullQueryId : Option String) :
    List Effect × Timestamp :=
  match pullQueryId with
  | some qid =>
    if qid = "" then
      ([], date1970JanZero env.tzOffsetMinutes)
    else
      ([Effect.checkpointLookup qid env.checkpoint],
       env.checkpoint.getD (date1970JanZero env.tzOffsetMinutes))
  | none => ([], date1970JanZero env.tzOffsetMinutes)

/-- The `for` loop inside `processAllRecords` of `pull.js`, with the
`idsToDelete` / `recordsToUpdate` accumulators made explicit.  When any
pending operation exists for the page nothing is classified; otherwise a
record with `deleted === true` contributes its id to the delete batch, one
with `deleted === false` is put in the upsert batch, and anything else
throws. -/
def processRecordsLoop (pendingOperationsCount : Nat) :
    List Record → List String × List Record → Except String (List String × List Record)
  | [], acc => .ok acc
  | r :: rs, (idsToDelete, recordsToUpdate) =>
    if pendingOperationsCount = 0 then
      match r.deleted with
      | .tt => processRecordsLoop pendingOperationsCount rs (idsToDelete ++ [r.id], recordsToUpdate)
      | .ff => processRecordsLoop pendingOperationsCount rs (idsToDelete, recordsToUpdate ++ [r])
      | .other => .error "'deleted' system property is missing. Pull cannot work without it."
    else
      processRecordsLoop pendingOperationsCount rs (idsToDelete, recordsToUpdate)

/-- `processAllRecords` of `pull.js`: the pending-operation log is queried
once for the whole page (only the count of the result matters) and the page
is classified into the delete and upsert batches. -/
def processAllRecords (pendingOperationsCount : Nat) (records : List Record) :
    Except String (List String × List Record) :=
  processRecordsLoop pendingOperationsCount records ([], [])

/-- `processPulledRecords` of `pull.js`: classify the page, then issue the
batched delete followed by the batched upsert; when classification throws,
neither store call is made. -/
def processPulledRecords (env : PullEnv) (tableName : String) (pulledRecords : List Record) :
    List Effect × Except String Unit :=
  match processAllRecords (env.pendingOpsCount tableName pulledRecords) pulledRecords with
  | .error e => ([], .error e)
  | .ok (idsToDelete, recordsToUpdate) =>
    ([Effect.storeDel tableName idsToDelete, Effect.storeUpsert tableName recordsToUpdate],
     .ok ())

/-- `onPagePulled` of `pull.js`: for a truthy query id, upsert the checkpoint
row with the current `lastKnownUpdatedAt`; otherwise do nothing. -/
def onPagePulled (pullQueryId : Option String) (st : PullState) : List Effect :=
  match pullQueryId with
  | some qid =>
    if qid = "" then []
    else [Effect.checkpointWrite qid st.pagePullQuery.base.table st.lastKnownUpdatedAt]
  | none => []

/-- `pullPage` of `pull.js`: read one page from the remote source, process
its records against the local store, then record the checkpoint, and hand the
pulled records back. -/
def pullPage (env : PullEnv) (pullQueryId : Option String) (st : PullState) :
    List Effect × Except String (List Record) :=
  let pulledRecords := env.server st.pagePullQuery
  match processPulledRecords env st.pagePullQuery.base.table pulledRecords with
  | (effs, .error e) => (Effect.fetch st.pagePullQuery pulledRecords :: effs, .error e)
  | (effs, .ok ()) =>
    (Effect.fetch st.pagePullQuery pulledRecords :: (effs ++ onPagePulled pullQueryId st),
     .ok pulledRecords)

/-- `pullAllPages` of `pull.js`: pull a page; stop when it is empty,
otherwise update the query and recurse.  The JS recursion has no fuel; the
`fuel` argument only bounds the depth explored here and running out of it is
reported as an error, never as success. -/
def pullAllPages (env : PullEnv) (pullQueryId : Option String) :
    Nat → PullState → List Effect × Except String Unit
  | 0, _ => ([], .error "out of fuel")
  | fuel + 1, st =>
    match pullPage env pullQueryId st with
    | (effs, .error e) => (effs, .error e)
    | (effs, .ok pulledRecords) =>
      if isPullComplete pulledRecords then
        (effs, .ok ())
      else
        match updateQueryForNextPage st pulledRecords with
        | .error e => (effs, .error e)
        | .ok st' =>
          let rest := pullAllPages env pullQueryId fuel st'
          (effs ++ rest.1, rest.2)

/-- The `settings.pageSize` check of `pull` in `pull.js`: `null` means the
default, a positive integer is accepted, anything else throws. -/
def checkPageSize (pageSizeSetting : Option Int) : Except String Nat :=
  match pageSizeSetting with
  | none => .ok defaultPageSize
  | some n => if 0 < n then .ok n.toNat else .error "Page size must be a positive integer."

/-- The closure state as it stands right after `pull` copies the caller's
query, before `setupQuery` assigns `lastKnownUpdatedAt` and
`pagePullQuery`. -/
def initialPullState (query : SyncQuery) (pageSize : Nat) : PullState :=
  { lastKnownUpdatedAt := 0
    pagePullQuery := { base := query, cursorFilter := 0, ordering := [], skip := 0, take := 0 }
    pageSize := pageSize
    tablePullQuery := query }

/-- `setupQuery` of `pull.js`: load the last known `updatedAt` and build the
first page query from it. -/
def setupQuery (env : PullEnv) (pullQueryId : Option String) (st : PullState) :
    List Effect × PullState :=
  let loaded := getLastKnownUpdatedAt env pullQueryId
  (loaded.1, buildQueryFromLastKnownUpdateAt st loaded.2)

/-- `pull` of `pull.js`: validate the query and the page-size setting before
any collaborator is touched, then set up the first page query and pull all
pages. -/
def pull (env : PullEnv) (query : SyncQuery) (queryId : Option String)
    (pageSizeSetting : Option Int) (fuel : Nat) : List Effect × Except String Unit :=
  match validateQuery query with
  | .error e => ([], .error e)
  | .ok () =>
    match checkPageSize pageSizeSetting with
    | .error e => ([], .error e)
    | .ok pageSize =>
      let setup := setupQuery env queryId (initialPullState query pageSize)
      let result := pullAllPages env queryId fuel setup.2
      (setup.1 ++ result.1, result.2)

/-- The pages returned by the remote source, in fetch order, read off a
trace. -/
def fetchedPages : List Effect → List (List Record)
  | [] => []
  | .fetch _ rs :: es => rs :: fetchedPages es
  | .storeDel _ _ :: es => fetchedPages es
  | .storeUpsert _ _ :: es => fetchedPages es
  | .checkpointLookup _ _ :: es => fetchedPages es
  | .checkpointWrite _ _ _ :: es => fetchedPages es

/-- The checkpoint rows written during a run, in order, read off a trace. -/
def checkpointWrites : List Effect → List (String × String × Timestamp)
  | [] => []
  | .checkpointWrite q t v :: es => (q, t, v) :: checkpointWrites es
  | .fetch _ _ :: es => checkpointWrites es
  | .storeDel _ _ :: es => checkpointWrites es
  | .storeUpsert _ _ :: es => checkpointWrites es
  | .checkpointLookup _ _ :: es => checkpointWrites es

end PullSync

namespace PullSync

/-! ### Shared concrete inputs used by witnesses -/

/-- An environment with an always-empty remote source and no pending
operations. -/
def envNoPending : PullEnv :=
  { server := fun _ => []
    pendingOpsCount := fun _ _ => 0
    checkpoint := none
    tzOffsetMinutes := 0 }

/-- A well-formed pull query over table `todo`, with no ordering, paging,
selection or total-count request. -/
def queryW : SyncQuery :=
  { table := "todo"
    filterODataString := none
    ordering := []
    skip := none
    take := none
    selections := []
    includeTotalCount := false }

/-- A pull state whose cursor is `10`, as built for the first page of a pull
of `queryW` with page size `50`. -/
def stW : PullState := buildQueryFromLastKnownUpdateAt (initialPullState queryW 50) 10

/-- A record last updated at the cursor instant `10`. -/
def recT10 : Record := { id := "a", updatedAt := some 10, deleted := DeletedFlag.ff }

/-- A record last updated at `20`, past the cursor instant. -/
def recT20 : Record := { id := "b", updatedAt := some 20, deleted := DeletedFlag.ff }

/-- A record flagged as deleted on the server. -/
def recDel : Record := { id := "c", updatedAt := some 30, deleted := DeletedFlag.tt }

/-- A record whose `deleted` system column is absent or non-boolean. -/
def recBad : Record := { id := "d", updatedAt := some 40, deleted := DeletedFlag.other }

/-! ### Classification of a page (`processAllRecords`) -/

/-- With pending operations present, the loop classifies nothing and returns
its accumulators unchanged. -/
lemma processRecordsLoop_pending {n : Nat} (hn : n ≠ 0) :
    ∀ (rs : List Record) (acc : List String × List Record),
      processRecordsLoop n rs acc = .ok acc := by
  intro rs
  induction rs with
  | nil => intro acc; rfl
  | cons r rs ih =>
    intro acc
    obtain ⟨dels, ups⟩ := acc
    simp only [processRecordsLoop, if_neg hn]
    exact ih (dels, ups)

/-- With no pending operations, a successful run of the loop appends exactly
the ids of the `deleted === true` records to the delete accumulator and
exactly the `deleted === false` records to the upsert accumulator. -/
lemma processRecordsLoop_ok_zero :
    ∀ (rs : List Record) (dels : List String) (ups : List Record)
      (out : List String × List Record),
      processRecordsLoop 0 rs (dels, ups) = .ok out →
      out = (dels ++ (rs.filter (fun r => r.deleted == DeletedFlag.tt)).map Record.id,
             ups ++ rs.filter (fun r => r.deleted == DeletedFlag.ff)) := by
  intro rs
  induction rs with
  | nil =>
    intro dels ups out h
    simp only [processRecordsLoop] at h
    cases h
    simp
  | cons r rs ih =>
    intro dels ups out h
    simp only [processRecordsLoop, if_pos rfl] at h
    cases hflag : r.deleted with
    | tt =>
      rw [hflag] at h
      have hout := ih (dels ++ [r.id]) ups out h
      have hfilT : List.filter (fun x : Record => x.deleted == DeletedFlag.tt) (r :: rs) =
          r :: List.filter (fun x : Record => x.deleted == DeletedFlag.tt) rs :=
        List.filter_cons_of_pos (by show (r.deleted == DeletedFlag.tt) = true; rw [hflag]; decide)
      have hfilF : List.filter (fun x : Record => x.deleted == DeletedFlag.ff) (r :: rs) =
          List.filter (fun x : Record => x.deleted == DeletedFlag.ff) rs :=
        List.filter_cons_of_neg
          (by show ¬ (r.deleted == DeletedFlag.ff) = true; rw [hflag]; decide)
      rw [hout, hfilT, hfilF]
      simp
    | ff =>
      rw [hflag] at h
      have hout := ih dels (ups ++ [r]) out h
      have hfilF : List.filter (fun x : Record => x.deleted == DeletedFlag.ff) (r :: rs) =
          r :: List.filter (fun x : Record => x.deleted == DeletedFlag.ff) rs :=
        List.filter_cons_of_pos (by show (r.deleted == DeletedFlag.ff) = true; rw [hflag]; decide)
      have hfilT : List.filter (fun x : Record => x.deleted == DeletedFlag.tt) (r :: rs) =
          List.filter (fun x : Record => x.deleted == DeletedFlag.tt) rs :=
        List.filter_cons_of_neg
          (by show ¬ (r.deleted == DeletedFlag.tt) = true; rw [hflag]; decide)
      rw [hout, hfilT, hfilF]
      simp
    | other =>
      rw [hflag] at h
      cases h

/-- With no pending operations, a record with a missing or non-boolean
`deleted` flag anywhere in the remainder makes the loop throw. -/
lemma processRecordsLoop_error_of_bad :
    ∀ (rs : List Record) (acc : List String × List Record),
      (∃ r ∈ rs, r.deleted = DeletedFlag.other) →
      ∃ e, processRecordsLoop 0 rs acc = .error e := by
  intro rs
  induction rs with
  | nil =>
    intro acc h
    obtain ⟨r, hr, _⟩ := h
    cases hr
  | cons r rs ih =>
    intro acc h
    obtain ⟨dels, ups⟩ := acc
    simp only [processRecordsLoop, if_pos rfl]
    cases hflag : r.deleted with
    | tt =>
      obtain ⟨r', hr', hbad⟩ := h
      rcases List.mem_cons.mp hr' with rfl | hmem
      · rw [hflag] at hbad; cases hbad
      · exact ih _ ⟨r', hmem, hbad⟩
    | ff =>
      obtain ⟨r', hr', hbad⟩ := h
      rcases List.mem_cons.mp hr' with rfl | hmem
      · rw [hflag] at hbad; cases hbad
      · exact ih _ ⟨r', hmem, hbad⟩
    | other => exact ⟨_, rfl⟩

/-- C3: for every fetched page, when the pending-operation log reports any
pending operation for the page (queried once for the whole page), no record
is classified into either batch; otherwise the delete batch holds exactly the
ids of the records whose delete flag is strictly `true` and the upsert batch
holds exactly the records whose delete flag is strictly `false`. -/
theorem page_classification_spec (pendingOperationsCount : Nat) (records : List Record) :
    (pendingOperationsCount ≠ 0 →
      processAllRecords pendingOperationsCount records = .ok ([], [])) ∧
    (∀ idsToDelete recordsToUpdate,
      processAllRecords 0 records = .ok (idsToDelete, recordsToUpdate) →
      idsToDelete = (records.filter (fun r => r.deleted == DeletedFlag.tt)).map Record.id ∧
      recordsToUpdate = records.filter (fun r => r.deleted == DeletedFlag.ff)) := by
  constructor
  · intro hn
    exact processRecordsLoop_pending hn records ([], [])
  · intro idsToDelete recordsToUpdate h
    have := processRecordsLoop_ok_zero records [] [] (idsToDelete, recordsToUpdate) h
    simp only [List.nil_append] at this
    exact ⟨congrArg Prod.fst this, congrArg Prod.snd this⟩

/-- Witness for `page_classification_spec` at a concrete page with one
deleted and one live record. -/
theorem page_classification_spec_witness :
    processAllRecords 1 [recDel, recT20] = .ok ([], []) ∧
    ([recDel.id] = ([recDel, recT20].filter (fun r => r.deleted == DeletedFlag.tt)).map Record.id ∧
     [recT20] = [recDel, recT20].filter (fun r => r.deleted == DeletedFlag.ff)) := by
  refine ⟨(page_classification_spec 1 [recDel, recT20]).1 (by decide), ?_⟩
  exact (page_classification_spec 0 [recDel, recT20]).2 [recDel.id] [recT20] rfl

/-- C4: a page with no pending operations that contains a record whose
delete flag is absent or non-boolean fails with an error, and neither the
batched delete nor the batched upsert reaches the local store. -/
theorem missing_delete_flag_fails_page (env : PullEnv) (tableName : String)
    (records : List Record)
    (hpending : env.pendingOpsCount tableName records = 0)
    (hbad : ∃ r ∈ records, r.deleted = DeletedFlag.other) :
    (processPulledRecords env tableName records).1 = [] ∧
    ∃ e, (processPulledRecords env tableName records).2 = Except.error e := by
  obtain ⟨e, he⟩ := processRecordsLoop_error_of_bad records ([], []) hbad
  have hall : processAllRecords (env.pendingOpsCount tableName records) records = .error e := by
    rw [hpending]; exact he
  unfold processPulledRecords
  rw [hall]
  exact ⟨rfl, e, rfl⟩

/-- Witness for `missing_delete_flag_fails_page` at a concrete page holding
one well-formed and one flag-less record. -/
theorem missing_delete_flag_fails_page_witness :
    (processPulledRecords envNoPending "todo" [recT20, recBad]).1 = [] ∧
    ∃ e, (processPulledRecords envNoPending "todo" [recT20, recBad]).2 = Except.error e :=
  missing_delete_flag_fails_page envNoPending "todo" [recT20, recBad] rfl
    ⟨recBad, by simp, rfl⟩

/-- A pulled record with an empty — hence invalid — id. -/
def invalidIdRecord : Record := { id := "", updatedAt := some 100, deleted := DeletedFlag.ff }

/-- C5: the live pull path performs no id validation — the
`_.isValidId` check sits commented out inside `processAllRecords` (and its
live copy survives only in the dead `processSingleRecord`) — so a page
holding a record with an empty id is processed without error and the record
is handed to the batched upsert instead of failing the page. -/
theorem invalid_id_record_applied_without_error :
    invalidIdRecord.id = "" ∧
    processPulledRecords envNoPending "todo" [invalidIdRecord] =
      ([Effect.storeDel "todo" [], Effect.storeUpsert "todo" [invalidIdRecord]],
       Except.ok ()) := by
  exact ⟨rfl, rfl⟩

/-! ### Checkpoint load (`getLastKnownUpdatedAt`) -/

/-- An environment whose engine-local timezone offset is +60 minutes. -/
def envTz60 : PullEnv := { envNoPending with tzOffsetMinutes := 60 }

/-- C8 counterexample: the "beginning of time" sentinel the code returns is
`new Date(1970, 0, 0)` — a calendar-computed, timezone-dependent value — and
not the minimum representable timestamp. -/
theorem sentinel_is_calendar_computed_not_min :
    (getLastKnownUpdatedAt envNoPending none).2 = -86400000 ∧
    (getLastKnownUpdatedAt envNoPending none).2 ≠ minJsDateMs ∧
    (getLastKnownUpdatedAt envTz60 none).2 ≠ (getLastKnownUpdatedAt envNoPending none).2 := by
  refine ⟨rfl, by decide, by decide⟩

/-- C8 (amended): the checkpoint load never fails: a falsy identity, or a
truthy identity with no stored row, yields the `new Date(1970, 0, 0)`
sentinel of the engine's timezone, and a truthy identity with a stored row
yields that row's value. -/
theorem checkpoint_load_spec (env : PullEnv) (qid : Option String) :
    (jsTruthyStr qid = false →
      (getLastKnownUpdatedAt env qid).2 = date1970JanZero env.tzOffsetMinutes) ∧
    (∀ q, qid = some q → q ≠ "" → env.checkpoint = none →
      (getLastKnownUpdatedAt env qid).2 = date1970JanZero env.tzOffsetMinutes) ∧
    (∀ q v, qid = some q → q ≠ "" → env.checkpoint = some v →
      (getLastKnownUpdatedAt env qid).2 = v) := by
  refine ⟨?_, ?_, ?_⟩
  · intro h
    cases qid with
    | none => rfl
    | some q =>
      have hq : q = "" := by simpa [jsTruthyStr] using h
      simp [getLastKnownUpdatedAt, hq]
  · rintro q rfl hq hnone
    simp [getLastKnownUpdatedAt, hq, hnone]
  · rintro q v rfl hq hsome
    simp [getLastKnownUpdatedAt, hq, hsome]

/-- Witness for `checkpoint_load_spec`: a vanilla load yields the sentinel
and a load against a stored row yields the stored value. -/
theorem checkpoint_load_spec_witness :
    (getLastKnownUpdatedAt envNoPending none).2 = date1970JanZero 0 ∧
    (getLastKnownUpdatedAt { envNoPending with checkpoint := some 5 } (some "q")).2 = 5 := by
  constructor
  · exact (checkpoint_load_spec envNoPending none).1 rfl
  · exact (checkpoint_load_spec { envNoPending with checkpoint := some 5 } (some "q")).2.2
      "q" 5 rfl (by decide) rfl

end PullSync

namespace PullSync

/-! ### Cursor advance (`updateQueryForNextPage`) -/

/-- A query that passed `validateQuery` has no ordering clause and no truthy
skip. -/
lemma validateQuery_ok_shape (q : SyncQuery) (h : validateQuery q = .ok ()) :
    q.ordering = [] ∧ q.skip.getD 0 = 0 := by
  unfold validateQuery at h
  split_ifs at h with h1 h2 h3 h4 h5
  refine ⟨not_ne_iff.mp h1, ?_⟩
  cases hs : q.skip with
  | none => rfl
  | some n =>
    have hn : n = 0 := by
      rw [hs] at h2
      simpa [jsTruthyNat] using h2
    simp [hs, hn]

/-- C1: for a non-empty page whose last record carries a valid `updatedAt`
timestamp, when that timestamp equals the cursor the cursor is kept and the
page query's skip grows by the page length; otherwise the cursor moves to
that timestamp and a fresh page query is built with offset `0`, the
`updatedAt >= cursor` filter, ascending `updatedAt` ordering and the page
size as limit. -/
theorem cursor_advance_spec (st : PullState) (records : List Record)
    (lastRecord : Record) (t : Timestamp)
    (hvalid : validateQuery st.tablePullQuery = .ok ())
    (hlast : records.getLast? = some lastRecord)
    (ht : lastRecord.updatedAt = some t) :
    (t = st.lastKnownUpdatedAt →
      updateQueryForNextPage st records =
        .ok { st with pagePullQuery :=
              { st.pagePullQuery with skip := st.pagePullQuery.skip + records.length } }) ∧
    (t ≠ st.lastKnownUpdatedAt →
      updateQueryForNextPage st records =
        .ok { st with
              lastKnownUpdatedAt := t
              pagePullQuery :=
                { base := st.tablePullQuery
                  cursorFilter := t
                  ordering := [updatedAtColumnName]
                  skip := 0
                  take := st.pageSize } }) := by
  obtain ⟨hord, hskip⟩ := validateQuery_ok_shape st.tablePullQuery hvalid
  constructor
  · intro heq
    simp only [updateQueryForNextPage, hlast, ht, if_pos heq]
  · intro hne
    simp only [updateQueryForNextPage, hlast, ht, if_neg hne]
    simp [buildQueryFromLastKnownUpdateAt, hord, hskip]

/-- Witness for `cursor_advance_spec`: the skip-bump branch at the cursor
instant and the rebuild branch past it, at concrete inputs. -/
theorem cursor_advance_spec_witness :
    updateQueryForNextPage stW [recT10] =
      .ok { stW with pagePullQuery :=
            { stW.pagePullQuery with skip := stW.pagePullQuery.skip + 1 } } ∧
    updateQueryForNextPage stW [recT20] =
      .ok { stW with
            lastKnownUpdatedAt := 20
            pagePullQuery :=
              { base := stW.tablePullQuery
                cursorFilter := 20
                ordering := [updatedAtColumnName]
                skip := 0
                take := stW.pageSize } } := by
  constructor
  · exact (cursor_advance_spec stW [recT10] recT10 10 rfl rfl rfl).1 rfl
  · exact (cursor_advance_spec stW [recT20] recT20 20 rfl rfl rfl).2 (by decide)

/-- The last element given by `getLast?` belongs to the list. -/
lemma mem_of_getLast_eq_some {α : Type} {l : List α} {a : α} (h : l.getLast? = some a) :
    a ∈ l := by
  obtain ⟨hne, rfl⟩ := List.mem_getLast?_eq_getLast (show a ∈ l.getLast? from h)
  exact List.getLast_mem hne

/-- C9: a cursor-advance step never lowers `lastKnownUpdatedAt`: under the
precondition that every record of the fetched page satisfies the page
filter `updatedAt >= cursor` (and that the page query's cursor filter is the
current cursor, which holds by construction), the updated state's cursor is
at least the old one. -/
theorem cursor_monotone_step (st : PullState) (records : List Record) (st' : PullState)
    (hlink : st.pagePullQuery.cursorFilter = st.lastKnownUpdatedAt)
    (hfilter : ∀ r ∈ records, ∀ u : Timestamp, r.updatedAt = some u →
      st.pagePullQuery.cursorFilter ≤ u)
    (h : updateQueryForNextPage st records = .ok st') :
    st.lastKnownUpdatedAt ≤ st'.lastKnownUpdatedAt := by
  unfold updateQueryForNextPage at h
  split at h
  · cases h
  · rename_i lastRecord hlast
    split at h
    · cases h
    · rename_i t ht
      split at h
      · cases h
        exact le_refl _
      · rename_i hne
        cases h
        have hle := hfilter lastRecord (mem_of_getLast_eq_some hlast) t ht
        rw [hlink] at hle
        simpa [buildQueryFromLastKnownUpdateAt] using hle

/-- Witness for `cursor_monotone_step` at a concrete advancing step. -/
theorem cursor_monotone_step_witness :
    stW.lastKnownUpdatedAt ≤ (buildQueryFromLastKnownUpdateAt stW 20).lastKnownUpdatedAt := by
  refine cursor_monotone_step stW [recT20] (buildQueryFromLastKnownUpdateAt stW 20) rfl ?_ rfl
  intro r hr u hu
  rw [List.mem_singleton] at hr
  subst hr
  have h20 : some (20 : Timestamp) = some u := hu
  cases h20
  decide

/-! ### Query validation before any effect (`pull`) -/

/-- C6: a pull query carrying an ordering clause, a truthy skip, a truthy
take, a non-empty selection list or a total-count request makes `pull` fail
with the validation error before any effect — no remote fetch, no store
mutation, no checkpoint access; a query with none of these passes
validation, which returns no value. -/
theorem pull_validation_spec (env : PullEnv) (query : SyncQuery) (queryId : Option String)
    (pageSizeSetting : Option Int) (fuel : Nat) :
    ((query.ordering ≠ [] ∨ jsTruthyNat query.skip = true ∨ jsTruthyNat query.take = true ∨
        query.selections ≠ [] ∨ query.includeTotalCount = true) →
      ∃ e, validateQuery query = .error e ∧
        pull env query queryId pageSizeSetting fuel = ([], .error e)) ∧
    (query.ordering = [] → jsTruthyNat query.skip = false → jsTruthyNat query.take = false →
      query.selections = [] → query.includeTotalCount = false →
      validateQuery query = .ok ()) := by
  constructor
  · intro hbad
    have hex : ∃ e, validateQuery query = Except.error e := by
      unfold validateQuery
      split_ifs with h1 h2 h3 h4 h5
      · exact ⟨_, rfl⟩
      · exact ⟨_, rfl⟩
      · exact ⟨_, rfl⟩
      · exact ⟨_, rfl⟩
      · exact ⟨_, rfl⟩
      · rcases hbad with h | h | h | h | h
        · exact absurd h h1
        · exact absurd h h2
        · exact absurd h h3
        · exact absurd h h4
        · exact absurd h h5
    obtain ⟨e, he⟩ := hex
    refine ⟨e, he, ?_⟩
    unfold pull
    rw [he]
  · intro h1 h2 h3 h4 h5
    unfold validateQuery
    rw [if_neg (not_ne_iff.mpr h1), h2, h3, if_neg (not_ne_iff.mpr h4), h5]
    rfl

/-- A query with a truthy skip, used to exercise the failing branch of
validation. -/
def queryBadSkip : SyncQuery := { queryW with skip := some 3 }

/-- Witness for `pull_validation_spec`: a skip-carrying query fails the whole
pull with the validation error and an empty effect trace, and the
well-formed `queryW` passes validation. -/
theorem pull_validation_spec_witness :
    pull envNoPending queryBadSkip none none 1 =
      ([], .error "skip is not supported in the pull query") ∧
    validateQuery queryW = .ok () := by
  have h := (pull_validation_spec envNoPending queryBadSkip none none 1).1
    (Or.inr (Or.inl (by decide)))
  obtain ⟨e, he, hp⟩ := h
  have he2 : Except.error (ε := String) (α := Unit) e =
      Except.error "skip is not supported in the pull query" := by
    rw [← he]; rfl
  injection he2 with he3
  subst he3
  exact ⟨hp, (pull_validation_spec envNoPending queryW none none 1).2 rfl rfl rfl rfl rfl⟩

end PullSync

namespace PullSync

/-! ### Trace bookkeeping lemmas -/

lemma fetchedPages_append (l1 l2 : List Effect) :
    fetchedPages (l1 ++ l2) = fetchedPages l1 ++ fetchedPages l2 := by
  induction l1 with
  | nil => rfl
  | cons e es ih => cases e <;> simp [fetchedPages, ih]

lemma checkpointWrites_append (l1 l2 : List Effect) :
    checkpointWrites (l1 ++ l2) = checkpointWrites l1 ++ checkpointWrites l2 := by
  induction l1 with
  | nil => rfl
  | cons e es ih => cases e <;> simp [checkpointWrites, ih]

/-- The page-processing step issues only store operations: no fetch and no
checkpoint write appears in its trace. -/
lemma processPulledRecords_effects (env : PullEnv) (t : String) (rs : List Record) :
    fetchedPages (processPulledRecords env t rs).1 = [] ∧
    checkpointWrites (processPulledRecords env t rs).1 = [] := by
  cases hp : processAllRecords (env.pendingOpsCount t rs) rs with
  | error e => simp [processPulledRecords, hp, fetchedPages, checkpointWrites]
  | ok p =>
    obtain ⟨a, b⟩ := p
    simp [processPulledRecords, hp, fetchedPages, checkpointWrites]

lemma onPagePulled_no_fetch (qid : Option String) (st : PullState) :
    fetchedPages (onPagePulled qid st) = [] := by
  cases qid with
  | none => rfl
  | some q =>
    by_cases hq : q = "" <;> simp [onPagePulled, hq, fetchedPages]

lemma checkpointWrites_onPagePulled_some (q : String) (hq : q ≠ "") (st : PullState) :
    checkpointWrites (onPagePulled (some q) st) =
      [(q, st.pagePullQuery.base.table, st.lastKnownUpdatedAt)] := by
  simp [onPagePulled, hq, checkpointWrites]

/-- A successful `pullPage` returns exactly the server's page, records one
fetch of it, and writes checkpoints exactly as `onPagePulled` does. -/
lemma pullPage_ok_spec (env : PullEnv) (qid : Option String) (st : PullState)
    (effs : List Effect) (rs : List Record)
    (h : pullPage env qid st = (effs, .ok rs)) :
    rs = env.server st.pagePullQuery ∧
    fetchedPages effs = [rs] ∧
    checkpointWrites effs = checkpointWrites (onPagePulled qid st) := by
  simp only [pullPage] at h
  split at h
  · simp at h
  · rename_i effs2 heq
    injection h with h1 h2
    injection h2 with h3
    subst h1 h3
    have he2 : (processPulledRecords env st.pagePullQuery.base.table
        (env.server st.pagePullQuery)).1 = effs2 := by rw [heq]
    have hf := (processPulledRecords_effects env st.pagePullQuery.base.table
      (env.server st.pagePullQuery)).1
    have hc := (processPulledRecords_effects env st.pagePullQuery.base.table
      (env.server st.pagePullQuery)).2
    rw [he2] at hf hc
    refine ⟨rfl, ?_, ?_⟩
    · simp [fetchedPages, fetchedPages_append, hf, onPagePulled_no_fetch]
    · simp [checkpointWrites, checkpointWrites_append, hc]

/-- A failed `pullPage` writes no checkpoint. -/
lemma pullPage_error_no_writes (env : PullEnv) (qid : Option String) (st : PullState)
    (effs : List Effect) (e : String)
    (h : pullPage env qid st = (effs, .error e)) :
    checkpointWrites effs = [] := by
  simp only [pullPage] at h
  split at h
  · rename_i effs2 e2 heq
    injection h with h1 h2
    subst h1
    have he2 : (processPulledRecords env st.pagePullQuery.base.table
        (env.server st.pagePullQuery)).1 = effs2 := by rw [heq]
    have hc := (processPulledRecords_effects env st.pagePullQuery.base.table
      (env.server st.pagePullQuery)).2
    rw [he2] at hc
    simp [checkpointWrites, hc]
  · simp at h

/-- A page that is not complete is non-empty. -/
lemma not_complete_ne_nil (rs : List Record) (h : ¬ isPullComplete rs = true) : rs ≠ [] := by
  intro hnil
  subst hnil
  exact h rfl

/-- C2: a run of the page-fetch loop that terminates successfully fetched at
least one page, its last fetched page holds zero records, and every earlier
fetched page is non-empty — so a non-empty page, even one smaller than the
page size, is always followed by another fetch. -/
theorem pull_loop_terminates_iff_empty_page (env : PullEnv) (pullQueryId : Option String) :
    ∀ (fuel : Nat) (st : PullState) (trace : List Effect),
      pullAllPages env pullQueryId fuel st = (trace, .ok ()) →
      fetchedPages trace ≠ [] ∧
      (fetchedPages trace).getLast? = some [] ∧
      ∀ p ∈ (fetchedPages trace).dropLast, p ≠ [] := by
  intro fuel
  induction fuel with
  | zero =>
    intro st trace h
    simp [pullAllPages] at h
  | succ n ih =>
    intro st trace h
    simp only [pullAllPages] at h
    split at h
    · simp at h
    · rename_i effs rs heq
      split at h
      · rename_i hc
        injection h with h1 h2
        subst h1
        have hnil : rs = [] := by
          simpa [isPullComplete] using hc
        obtain ⟨-, hf, -⟩ := pullPage_ok_spec env pullQueryId st effs rs heq
        subst hnil
        rw [hf]
        refine ⟨by simp, rfl, by simp⟩
      · rename_i hc
        split at h
        · simp at h
        · rename_i st' hupd
          injection h with h1 h2
          subst h1
          have hpair : pullAllPages env pullQueryId n st' =
              ((pullAllPages env pullQueryId n st').1, Except.ok ()) := by
            rw [← h2]
          obtain ⟨hne, hlastp, hmid⟩ := ih st' _ hpair
          obtain ⟨-, hf, -⟩ := pullPage_ok_spec env pullQueryId st effs rs heq
          rw [fetchedPages_append, hf]
          have hrsne : rs ≠ [] := not_complete_ne_nil rs hc
          obtain ⟨a, l2, hl⟩ := List.exists_cons_of_ne_nil hne
          rw [hl]
          refine ⟨by simp, ?_, ?_⟩
          · rw [List.singleton_append, List.getLast?_cons_cons]
            rw [hl] at hlastp
            exact hlastp
          · rw [List.singleton_append, List.dropLast_cons₂]
            intro p hp
            rcases List.mem_cons.mp hp with rfl | hp2
            · exact hrsne
            · rw [hl] at hmid
              exact hmid p hp2

/-- Witness for `pull_loop_terminates_iff_empty_page` at a concrete
one-page run against an empty remote table. -/
theorem pull_loop_terminates_iff_empty_page_witness :
    fetchedPages (pullAllPages envNoPending none 1 stW).1 ≠ [] ∧
    (fetchedPages (pullAllPages envNoPending none 1 stW).1).getLast? = some [] ∧
    ∀ p ∈ (fetchedPages (pullAllPages envNoPending none 1 stW).1).dropLast, p ≠ [] :=
  pull_loop_terminates_iff_empty_page envNoPending none 1 stW
    (pullAllPages envNoPending none 1 stW).1 rfl

end PullSync

namespace PullSync

/-! ### Checkpointing behaviour of the loop -/

/-- With no query id, no iteration of the loop ever writes a checkpoint. -/
lemma pullAllPages_none_no_writes (env : PullEnv) :
    ∀ (fuel : Nat) (st : PullState),
      checkpointWrites (pullAllPages env none fuel st).1 = [] := by
  intro fuel
  induction fuel with
  | zero => intro st; rfl
  | succ n ih =>
    intro st
    simp only [pullAllPages]
    rcases hp : pullPage env none st with ⟨effs, out⟩
    cases out with
    | error e =>
      simp only [hp]
      exact pullPage_error_no_writes env none st effs e hp
    | ok rs =>
      simp only [hp]
      obtain ⟨-, -, hw⟩ := pullPage_ok_spec env none st effs rs hp
      by_cases hc : isPullComplete rs = true
      · simp only [if_pos hc]
        rw [hw]; rfl
      · simp only [if_neg hc]
        cases hupd : updateQueryForNextPage st rs with
        | error e =>
          simp only [hupd]
          rw [hw]; rfl
        | ok st' =>
          simp only [hupd]
          rw [checkpointWrites_append, hw, ih st']
          rfl

/-- C7: a vanilla pull (null identity) never writes a checkpoint row, no
matter how many pages it fetches and whether it succeeds or fails. -/
theorem vanilla_pull_writes_no_checkpoint (env : PullEnv) (query : SyncQuery)
    (pageSizeSetting : Option Int) (fuel : Nat) :
    checkpointWrites (pull env query none pageSizeSetting fuel).1 = [] := by
  simp only [pull]
  cases hv : validateQuery query with
  | error e => rfl
  | ok u =>
    cases u
    cases hps : checkPageSize pageSizeSetting with
    | error e => rfl
    | ok ps =>
      simp [setupQuery, getLastKnownUpdatedAt, checkpointWrites_append, checkpointWrites,
            pullAllPages_none_no_writes]

/-- With a truthy query id, every successful loop iteration contributes
exactly one checkpoint write per fetched page. -/
lemma pullAllPages_some_count (env : PullEnv) (q : String) (hq : q ≠ "") :
    ∀ (fuel : Nat) (st : PullState) (trace : List Effect),
      pullAllPages env (some q) fuel st = (trace, Except.ok ()) →
      (checkpointWrites trace).length = (fetchedPages trace).length := by
  intro fuel
  induction fuel with
  | zero => intro st trace h; simp [pullAllPages] at h
  | succ n ih =>
    intro st trace h
    simp only [pullAllPages] at h
    split at h
    · simp at h
    · rename_i effs rs heq
      split at h
      · injection h with h1 h2
        subst h1
        obtain ⟨-, hf, hw⟩ := pullPage_ok_spec env (some q) st effs rs heq
        rw [hf, hw, checkpointWrites_onPagePulled_some q hq st]
        rfl
      · split at h
        · simp at h
        · rename_i st' hupd
          injection h with h1 h2
          subst h1
          have hpair : pullAllPages env (some q) n st' =
              ((pullAllPages env (some q) n st').1, Except.ok ()) := by
            rw [← h2]
          have hcount := ih st' _ hpair
          obtain ⟨-, hf, hw⟩ := pullPage_ok_spec env (some q) st effs rs heq
          rw [checkpointWrites_append, fetchedPages_append, hf, hw,
              checkpointWrites_onPagePulled_some q hq st]
          simp [hcount]

/-- C10 (amended): for an incremental pull whose identity is truthy — a
non-null, non-empty string — a checkpoint row is written after every fetched
page — one write per fetch, including the terminating zero-record page — and
such a pull whose very first page is empty still writes exactly one
checkpoint row carrying the timestamp loaded at pull start. -/
theorem incremental_pull_checkpoints_every_page (env : PullEnv) (q : String) (hq : q ≠ "") :
    (∀ (fuel : Nat) (st : PullState) (trace : List Effect),
      pullAllPages env (some q) fuel st = (trace, Except.ok ()) →
      (checkpointWrites trace).length = (fetchedPages trace).length) ∧
    (∀ (query : SyncQuery) (pageSizeSetting : Option Int) (pageSize fuel : Nat),
      validateQuery query = .ok () →
      checkPageSize pageSizeSetting = .ok pageSize →
      env.server (setupQuery env (some q) (initialPullState query pageSize)).2.pagePullQuery = [] →
      checkpointWrites (pull env query (some q) pageSizeSetting (fuel + 1)).1 =
        [(q, query.table, (getLastKnownUpdatedAt env (some q)).2)]) := by
  constructor
  · exact pullAllPages_some_count env q hq
  · intro query pageSizeSetting pageSize fuel hvalid hps hserver
    have hsetup1 : checkpointWrites (setupQuery env (some q)
        (initialPullState query pageSize)).1 = [] := by
      simp [setupQuery, getLastKnownUpdatedAt, hq, checkpointWrites]
    simp only [pull, hvalid, hps, checkpointWrites_append]
    rw [hsetup1, List.nil_append]
    simp only [pullAllPages, pullPage]
    rw [hserver]
    simp [processPulledRecords, processAllRecords, processRecordsLoop, isPullComplete,
          onPagePulled, hq, checkpointWrites, setupQuery, buildQueryFromLastKnownUpdateAt,
          getLastKnownUpdatedAt, initialPullState]

/-- Witness for `incremental_pull_checkpoints_every_page`: a concrete
incremental pull against an empty remote table with no stored checkpoint. -/
theorem incremental_pull_checkpoints_every_page_witness :
    (checkpointWrites (pullAllPages envNoPending (some "qid") 1 stW).1).length =
      (fetchedPages (pullAllPages envNoPending (some "qid") 1 stW).1).length ∧
    checkpointWrites (pull envNoPending queryW (some "qid") none 1).1 =
      [("qid", "todo", (getLastKnownUpdatedAt envNoPending (some "qid")).2)] := by
  constructor
  · exact (incremental_pull_checkpoints_every_page envNoPending "qid" (by decide)).1 1 stW
      (pullAllPages envNoPending (some "qid") 1 stW).1 rfl
  · exact (incremental_pull_checkpoints_every_page envNoPending "qid" (by decide)).2
      queryW none 50 0 rfl rfl rfl

end PullSync

namespace PullSync

/-- C10 counterexample: the identity `some ""` is non-null, yet a successful
pull with it fetches one page and writes no checkpoint row at all — the
truthiness guards on the query id skip both the checkpoint lookup and every
checkpoint write, so `""` behaves like a vanilla pull. -/
theorem empty_string_identity_pull_writes_no_checkpoint :
    (pull envNoPending queryW (some "") none 1).2 = Except.ok () ∧
    fetchedPages (pull envNoPending queryW (some "") none 1).1 = [[]] ∧
    checkpointWrites (pull envNoPending queryW (some "") none 1).1 = [] := by
  exact ⟨rfl, rfl, rfl⟩

end PullSync
